import Mathlib

/-!
Shallow embedding of the command-line address book (`src/main.py`) and
verification of its specification claims.

Python strings are modelled as Lean `String`; the string primitives the
program uses (`strip`, `replace` of a single character or of a keyword,
`split(" ")`, `startswith`, `lower`, substring membership `in`) are
re-implemented over `List Char` by structural recursion so that all
definitions are executable and kernel-reducible.
-/

/-- Rebuild a `String` from its character list. -/
def strOf (l : List Char) : String := ⟨l⟩

/-- The whitespace characters removed by Python `str.strip()`. -/
def isSpaceChar (c : Char) : Bool :=
  c == ' ' || c == '\t' || c == '\n' || c == '\r' || c == '\x0b' || c == '\x0c'

/-- Python `str.strip()` on a character list: drop whitespace at both ends. -/
def pyStrip (s : List Char) : List Char :=
  ((s.dropWhile isSpaceChar).reverse.dropWhile isSpaceChar).reverse

/-- Python `str.replace(c, "")` for a single character `c`: drop every
occurrence, keeping everything else in order. -/
def pyRemoveChar (c : Char) (s : List Char) : List Char :=
  s.filter (fun x => x != c)

/-- Python `str.startswith(kw)` on character lists (`kw` first). -/
def startsWithL : List Char → List Char → Bool
  | [], _ => true
  | _ :: _, [] => false
  | k :: ks, c :: cs => k == c && startsWithL ks cs

/-- Python substring membership `needle in hay`. -/
def isSubOf (needle : List Char) : List Char → Bool
  | [] => needle.isEmpty
  | c :: rest => startsWithL needle (c :: rest) || isSubOf needle rest

/-- Python `needle in hay` at `String` level. -/
def containsSub (hay needle : String) : Bool :=
  isSubOf needle.data hay.data

/-- Worker for `removeAll`, structurally recursive on a fuel counter so that
it reduces inside the kernel; every step consumes at least one character, so
fuel equal to the input length never runs out. -/
def removeAllAux (kw : List Char) : Nat → List Char → List Char
  | 0, _ => []
  | _, [] => []
  | fuel + 1, c :: rest =>
    if startsWithL kw (c :: rest) && !kw.isEmpty then
      removeAllAux kw fuel (List.drop (kw.length - 1) rest)
    else
      c :: removeAllAux kw fuel rest

/-- Python `str.replace(kw, "")` for a keyword `kw`: remove every
non-overlapping occurrence, scanning left to right. -/
def removeAll (kw s : List Char) : List Char :=
  removeAllAux kw s.length s

/-- Python `str.split(" ")`: split on single spaces, keeping empty pieces;
the empty string yields one empty piece. -/
def splitOnSpace : List Char → List (List Char)
  | [] => [[]]
  | c :: rest =>
    match splitOnSpace rest with
    | [] => [[]]
    | g :: gs => if c == ' ' then [] :: g :: gs else (c :: g) :: gs

/-- Python `str.lower()` (the program only feeds it ASCII). -/
def pyLower (s : String) : String := strOf (s.data.map Char.toLower)

/-- A character with the Unicode `Numeric` property, as tested per character
by Python's `str.isnumeric()`.  The model is exact on ASCII (exactly the
digits '0'-'9' are numeric there) and lists the principal non-ASCII numeric
code-point ranges — superscripts, subscripts, vulgar fractions, Arabic-Indic,
extended Arabic-Indic, Devanagari, Bengali, Thai and fullwidth digits, Roman
numerals and circled numbers; every listed code point does carry the Unicode
property, so the model accepts only characters the source's check accepts.
Rarer numeric characters of other scripts are not listed; theorems whose
conclusion needs the check to *fail* therefore restrict their quantifiers to
ASCII input, where the model is exact. -/
def pyNumericChar (c : Char) : Bool :=
  c.isDigit
  || decide (c.toNat = 0xB2) || decide (c.toNat = 0xB3) || decide (c.toNat = 0xB9)
  || decide (0xBC ≤ c.toNat ∧ c.toNat ≤ 0xBE)
  || decide (0x660 ≤ c.toNat ∧ c.toNat ≤ 0x669)
  || decide (0x6F0 ≤ c.toNat ∧ c.toNat ≤ 0x6F9)
  || decide (0x966 ≤ c.toNat ∧ c.toNat ≤ 0x96F)
  || decide (0x9E6 ≤ c.toNat ∧ c.toNat ≤ 0x9EF)
  || decide (0xE50 ≤ c.toNat ∧ c.toNat ≤ 0xE59)
  || decide (c.toNat = 0x2070)
  || decide (0x2074 ≤ c.toNat ∧ c.toNat ≤ 0x2079)
  || decide (0x2080 ≤ c.toNat ∧ c.toNat ≤ 0x2089)
  || decide (0x2150 ≤ c.toNat ∧ c.toNat ≤ 0x215F)
  || decide (0x2160 ≤ c.toNat ∧ c.toNat ≤ 0x2182)
  || decide (0x2460 ≤ c.toNat ∧ c.toNat ≤ 0x2473)
  || decide (0xFF10 ≤ c.toNat ∧ c.toNat ≤ 0xFF19)

/-- Python `str.isnumeric()`: non-empty and every character numeric (per
`pyNumericChar`); note this accepts strings that are not all ASCII digits,
such as "½½". -/
def isnumeric (s : String) : Bool :=
  !s.data.isEmpty && s.data.all pyNumericChar

/-- Join a list of strings with a separator (`sep.join(...)` in Python). -/
def joinWith (sep : List Char) : List (List Char) → List Char
  | [] => []
  | [x] => x
  | x :: y :: rest => x ++ sep ++ joinWith sep (y :: rest)

/-- `sep.join(xs)` at `String` level. -/
def joinSep (sep : String) (xs : List String) : String :=
  strOf (joinWith sep.data (xs.map String.data))

/-! ## Data model: Field / Name / Phone / Record / AddressBook -/

/-- `Name` field: stores the raw string as-is. -/
structure Name where
  value : String
deriving DecidableEq, Repr

/-- `Phone.sanitize_number`: `number.strip().replace("-", "").replace("(", "")
.replace(")", "").replace("+", "")` — strip first, then remove the four
punctuation characters. -/
def sanitize_number (number : String) : String :=
  strOf (pyRemoveChar '+' (pyRemoveChar ')' (pyRemoveChar '(' (pyRemoveChar '-'
    (pyStrip number.data)))))

/-- `Phone` field: stores the sanitized value. -/
structure Phone where
  value : String
deriving DecidableEq, Repr

/-- `Phone.__init__`: sanitizes on construction. -/
def Phone.ofRaw (raw : String) : Phone := ⟨sanitize_number raw⟩

/-- `Record`: a name, the redundant single-phone field from construction,
and the ordered phone sequence. -/
structure Record where
  name : Name
  phone : Option Phone
  phones : List Phone
deriving DecidableEq, Repr

/-- `Record.__init__(name, phone=None)`: the phone, when given, is appended
to the (initially empty) sequence; a `Phone` object is always truthy. -/
def Record.make (name : Name) (phone : Option Phone) : Record :=
  ⟨name, phone, phone.toList⟩

/-- `Record.add_phone`: append to the sequence. -/
def Record.add_phone (r : Record) (p : Phone) : Record :=
  { r with phones := r.phones ++ [p] }

/-- The scan inside `Record.change`: find the first phone whose stored value
equals `old_p`; remove it and append `Phone(new_p)`; `none` when no phone
matches. -/
def changePhones (old_p new_p : String) : List Phone → Option (List Phone)
  | [] => none
  | p :: rest =>
    if p.value == old_p then
      some (rest ++ [Phone.ofRaw new_p])
    else
      match changePhones old_p new_p rest with
      | some rest' => some (p :: rest')
      | none => none

/-- `Record.change(old_p, new_p)`: returns the updated record together with
the not-found message when no phone matched (`None` result in Python is
modelled as `none`). -/
def Record.change (r : Record) (old_p new_p : String) : Record × Option String :=
  match changePhones old_p new_p r.phones with
  | some ps => ({ r with phones := ps }, none)
  | none => (r, some ("Phone " ++ old_p ++ " was not found in your records"))

/-- `AddressBook.data`: a Python `dict` keyed by contact-name string, as an
insertion-ordered association list with unique keys (assignment to an
existing key replaces in place, otherwise appends). -/
abbrev AddressBook := List (String × Record)

/-- `dict.get(k)`. -/
def abGet (b : AddressBook) (k : String) : Option Record :=
  match b with
  | [] => none
  | (k', r) :: rest => if k' == k then some r else abGet rest k

/-- `dict[k] = r`: replace in place when the key exists, else append. -/
def abInsert (b : AddressBook) (k : String) (r : Record) : AddressBook :=
  match b with
  | [] => [(k, r)]
  | (k', r') :: rest =>
    if k' == k then (k', r) :: rest else (k', r') :: abInsert rest k r

/-- `dict.pop(k, None)`: remove the entry keyed `k` when present. -/
def abPop (b : AddressBook) (k : String) : AddressBook :=
  match b with
  | [] => []
  | (k', r') :: rest => if k' == k then rest else (k', r') :: abPop rest k

/-- `AddressBook.add_record`: insert under the record's name value. -/
def add_record (b : AddressBook) (r : Record) : AddressBook :=
  abInsert b r.name.value r

/-- `AddressBook.remove_record`: pop the entry keyed by the record's name. -/
def remove_record (b : AddressBook) (r : Record) : AddressBook :=
  abPop b r.name.value

/-- The `f"{rec.name} : {','.join([str(p) for p in rec.phones])}"` line. -/
def renderRecord (r : Record) : String :=
  r.name.value ++ " : " ++ joinSep "," (r.phones.map Phone.value)

/-- `AddressBook.show_one_record`. -/
def show_one_record (b : AddressBook) (name : String) : String :=
  match abGet b name with
  | some rec => renderRecord rec
  | none => "There is no contact with the name " ++ name

/-- `AddressBook.show_all_records`. -/
def show_all_records (b : AddressBook) : String :=
  if b.isEmpty then "Your address book is empty"
  else joinSep "\n" (b.map (fun e => renderRecord e.2))

/-- `AddressBook.change_record`: looks the record up by the name's value and,
when found, applies `Record.change` — whose returned message (`.2`) is
discarded; the in-place record mutation is modelled by re-inserting the
changed record at the looked-up key. -/
def change_record (b : AddressBook) (username : Name) (old_n new_n : String) :
    AddressBook :=
  match abGet b username.value with
  | some record => abInsert b username.value (Record.change record old_n new_n).1
  | none => b

/-! ## Command handlers

Each Python handler mutates the module-level `ADDRESSBOOK` and either
returns a display string or raises one of the three exception types that
`error_handler` catches.  A handler is modelled as a state-passing function
returning the resulting book together with `Except PyErr String`. -/

/-- The exception types caught by `error_handler`. -/
inductive PyErr
  | indexError
  | valueError
  | keyError
deriving DecidableEq, Repr

/-- The message `error_handler` turns each caught exception into. -/
def errMsg : PyErr → String
  | .indexError => "You didn't provide contact name or phone number"
  | .valueError => "Phone number must include digits only"
  | .keyError => "Username is not in contact list"

/-- `args[i]` on the `*args` tuple: raises `IndexError` out of range. -/
def pyArg (args : List String) (i : Nat) : Except PyErr String :=
  match args.get? i with
  | some s => Except.ok s
  | none => Except.error PyErr.indexError

/-- Outcome of running a handler body: a result state with a value or an
exception, or — only possible for `add` — the process blocking forever at
the interactive prompt, or crashing with an uncaught `AttributeError`
(`remove_record(None)`). -/
instance : DecidableEq (Except PyErr String)
  | .error e, .error e' =>
    if h : e = e' then .isTrue (by rw [h]) else .isFalse (fun he => h (by injection he))
  | .error _, .ok _ => .isFalse (fun he => Except.noConfusion he)
  | .ok _, .error _ => .isFalse (fun he => Except.noConfusion he)
  | .ok x, .ok y =>
    if h : x = y then .isTrue (by rw [h]) else .isFalse (fun he => h (by injection he))

inductive HRes
  | done (b : AddressBook) (res : Except PyErr String)
  | blocked
  | crashed
deriving DecidableEq, Repr

/-- The confirmation string returned by `add`. -/
def addMsg (name phoneValue : String) : String :=
  "You just added contact \"" ++ name ++ "\" with phone \"" ++ phoneValue ++
    "\" to your list of contacts"

/-- The tail of `add` after the duplicate-name prompt has been resolved:
the digit check on the sanitized phone, then append-to-existing-record or
create-and-store, then the confirmation string.  `nv` is the (possibly
renamed) `name.value` and `rec` the current `ADDRESSBOOK.get(name.value)`. -/
def addFinish (b : AddressBook) (nv : String) (phone : Phone)
    (rec : Option Record) : HRes :=
  if isnumeric phone.value then
    match rec with
    | some r =>
      .done (abInsert b r.name.value (r.add_phone phone)) (.ok (addMsg nv phone.value))
    | none =>
      .done (add_record b (Record.make ⟨nv⟩ (some phone))) (.ok (addMsg nv phone.value))
  else
    .done b (.error .valueError)

/-- The answer the user eventually gives to the rewrite-or-new prompt. -/
inductive PromptAnswer
  | rewrite
  | createNew
deriving DecidableEq, Repr

/-- The `while True` prompt loop inside `add`: consume console answers until
one is `"2"` (create a renamed record) or `"1"` (rewrite); `none` when the
answers run out (the process would block forever). -/
def resolvePrompt : List String → Option PromptAnswer
  | [] => none
  | a :: rest =>
    if a == "2" then some .createNew
    else if a == "1" then some .rewrite
    else resolvePrompt rest

/-- The `add` handler.  `responses` are the strings the user would type at
the duplicate-name prompt. -/
def add (responses : List String) (b : AddressBook) (args : List String) : HRes :=
  match args.get? 0, args.get? 1 with
  | some a0, some a1 =>
    let phone := Phone.ofRaw a1
    let rec0 := abGet b a0
    if containsSub (show_all_records b) a0 then
      match resolvePrompt responses with
      | none => .blocked
      | some .createNew =>
        let nv := a0 ++ "(1)"
        addFinish b nv phone (abGet b nv)
      | some .rewrite =>
        match rec0 with
        | none => .crashed
        | some r =>
          let b1 := remove_record b r
          addFinish b1 a0 phone (abGet b1 a0)
    else
      addFinish b a0 phone rec0
  | _, _ => .done b (.error .indexError)

/-- The `hello` handler. -/
def hello (b : AddressBook) (_args : List String) :
    AddressBook × Except PyErr String :=
  (b, .ok "How can I help you?")

/-- The `show_all` handler. -/
def show_all (b : AddressBook) (_args : List String) :
    AddressBook × Except PyErr String :=
  (b, .ok (show_all_records b))

/-- The `change` handler: reads three positional arguments, requires the
new phone to be numeric, invokes `change_record` (whose result is
discarded), and returns the confirmation string. -/
def change (b : AddressBook) (args : List String) :
    AddressBook × Except PyErr String :=
  match args.get? 0, args.get? 1, args.get? 2 with
  | some n, some old_ph, some new_ph =>
    if isnumeric new_ph then
      (change_record b ⟨n⟩ old_ph new_ph,
        .ok ("You just changed number for contact '" ++ n ++
          "'. New number is '" ++ new_ph ++ "'"))
    else
      (b, .error .valueError)
  | _, _, _ => (b, .error .indexError)

/-- The `phone` handler. -/
def phone (b : AddressBook) (args : List String) :
    AddressBook × Except PyErr String :=
  match args.get? 0 with
  | some a0 => (b, .ok (show_one_record b a0))
  | none => (b, .error .indexError)

/-- The `HELP_INSTRUCTIONS` banner returned by `helper`. -/
def HELP_INSTRUCTIONS : String :=
  "This contact bot save your contacts\n    Global commands:\n      'add' - add new contact. Input username and phone\n    Example: add User_name 095-xxx-xx-xx\n      'change' - change users old phone to new phone. Input username, old phone and new phone\n    Example: change User_name 095-xxx-xx-xx 050-xxx-xx-xx\n      'phone' - show contacts of input user. Input username\n    Example: phone User_name\n      'delete' - removes contact from your address book\n    Example: delete User_name\n      'show all' - show all contacts\n    Example: show all\n      'exit/'.'/'bye'/'close' - exit bot\n    Example: exit"

/-- The `helper` handler. -/
def helper (b : AddressBook) (_args : List String) :
    AddressBook × Except PyErr String :=
  (b, .ok HELP_INSTRUCTIONS)

/-- The `delete_contact` handler: raises `IndexError` when there is no
name argument or the name argument is empty (falsy), otherwise pops the
entry keyed by the name and confirms. -/
def delete_contact (b : AddressBook) (args : List String) :
    AddressBook × Except PyErr String :=
  match args.get? 0 with
  | some a0 =>
    if a0 ≠ "" then
      (remove_record b (Record.make ⟨a0⟩ none),
        .ok (a0 ++ " was deleted from your contact list"))
    else
      (b, .error .indexError)
  | none => (b, .error .indexError)

/-! ## Command parser and REPL loop -/

/-- The seven registered handlers. -/
inductive Cmd
  | add
  | hello
  | showAll
  | change
  | phone
  | helper
  | deleteContact
deriving DecidableEq, Repr

/-- The `COMMANDS` dict: handler ↦ keyword, in registration order. -/
def COMMANDS : List (Cmd × String) :=
  [(.add, "add"), (.hello, "hello"), (.showAll, "show all"), (.change, "change"),
    (.phone, "phone"), (.helper, "help"), (.deleteContact, "delete")]

/-- Python `user_input.startswith(key_word)`. -/
def pyStartsWith (s kw : String) : Bool :=
  startsWithL kw.data s.data

/-- `user_input.replace(key_word, "").strip().split(" ")`. -/
def argsOf (kw s : String) : List String :=
  (splitOnSpace (pyStrip (removeAll kw.data s.data))).map strOf

/-- The `for` loop inside `commandParser`. -/
def parseWith : List (Cmd × String) → String → Option (Cmd × List String)
  | [], _ => none
  | (c, kw) :: rest, s =>
    if pyStartsWith s kw then some (c, argsOf kw s) else parseWith rest s

/-- `commandParser`: first registered keyword that is a prefix of the
input wins; `none` models the Python `(None, None)` result. -/
def commandParser (user_input : String) : Option (Cmd × List String) :=
  parseWith COMMANDS user_input

/-- Dispatch `command(*data)` for a parsed command. -/
def runCmd (responses : List String) (c : Cmd) (b : AddressBook)
    (args : List String) : HRes :=
  match c with
  | .add => add responses b args
  | .hello => let p := hello b args; .done p.1 p.2
  | .showAll => let p := show_all b args; .done p.1 p.2
  | .change => let p := change b args; .done p.1 p.2
  | .phone => let p := phone b args; .done p.1 p.2
  | .helper => let p := helper b args; .done p.1 p.2
  | .deleteContact => let p := delete_contact b args; .done p.1 p.2

/-- The exit tokens checked by `main`. -/
def end_words : List String := [".", "close", "bye", "exit"]

/-- One iteration of `main`'s `while True` loop. -/
inductive StepOutcome
  | exit
  | printed (b : AddressBook) (out : String)
  | blocked
  | crashed
deriving DecidableEq, Repr

/-- One step of the REPL on raw input line `user_input`: break on an exit
token (comparing the lower-cased, untrimmed line), otherwise parse the
lower-cased line and either report an unknown command or dispatch the
handler, translating caught exceptions through `error_handler`. -/
def mainStep (responses : List String) (b : AddressBook)
    (user_input : String) : StepOutcome :=
  if end_words.contains (pyLower user_input) then .exit
  else
    match commandParser (pyLower user_input) with
    | none => .printed b "Sorry, unknown command"
    | some (c, data) =>
      match runCmd responses c b data with
      | .done b' (.ok out) => .printed b' out
      | .done b' (.error e) => .printed b' (errMsg e)
      | .blocked => .blocked
      | .crashed => .crashed

/-! ## Shared concrete inputs for witnesses -/

/-- A one-contact book: Alice with the single sanitized phone 1234567890. -/
def sampleBook : AddressBook :=
  [("Alice", Record.make ⟨"Alice"⟩ (some (Phone.ofRaw "1234567890")))]

/-- The book produced by answering '1' (rewrite) when adding a second phone
for Alice to `sampleBook`. -/
def rewriteBook : AddressBook :=
  [("Alice", Record.make ⟨"Alice"⟩ (some (Phone.ofRaw "1112223333")))]

/-- The book produced by answering '2' (create renamed record) when adding a
second phone for Alice to `sampleBook`. -/
def renamedBook : AddressBook :=
  [("Alice", Record.make ⟨"Alice"⟩ (some (Phone.ofRaw "1234567890"))),
   ("Alice(1)", Record.make ⟨"Alice(1)"⟩ (some (Phone.ofRaw "1112223333")))]

/-- The address book invariant: every stored record's name value is its key,
and no two entries share a key. -/
def InvBook (b : AddressBook) : Prop :=
  (∀ e ∈ b, e.2.name.value = e.1) ∧ (b.map Prod.fst).Nodup

/-! ## Helper lemmas -/

theorem strOf_data (s : String) : strOf s.data = s := rfl

theorem strAppend_data (a b : String) : (a ++ b).data = a.data ++ b.data := by
  cases a; cases b; rfl

theorem str_append_paren_ne (s : String) : s ≠ s ++ "(1)" := by
  intro h
  have hl := congrArg List.length (congrArg String.data h)
  rw [strAppend_data, List.length_append] at hl
  simp at hl

theorem abGet_mem {b : AddressBook} {k : String} {r : Record}
    (h : abGet b k = some r) : (k, r) ∈ b := by
  induction b with
  | nil => simp [abGet] at h
  | cons e rest ih =>
    obtain ⟨k', r'⟩ := e
    simp only [abGet] at h
    by_cases hk : (k' == k) = true
    · rw [if_pos hk] at h
      injection h with h
      subst h
      rw [(beq_iff_eq.1 hk : k' = k)]
      exact List.mem_cons_self _ _
    · rw [if_neg hk] at h
      exact List.mem_cons_of_mem _ (ih h)

theorem abGet_eq_none_of_not_mem {b : AddressBook} {k : String}
    (h : k ∉ b.map Prod.fst) : abGet b k = none := by
  induction b with
  | nil => rfl
  | cons e rest ih =>
    obtain ⟨k', r'⟩ := e
    simp only [List.map_cons, List.mem_cons] at h
    push_neg at h
    simp only [abGet]
    rw [if_neg fun hk => h.1 (beq_iff_eq.1 hk).symm]
    exact ih h.2

theorem mem_abPop {b : AddressBook} {k : String} {e : String × Record}
    (h : e ∈ abPop b k) : e ∈ b := by
  induction b with
  | nil => simp [abPop] at h
  | cons e' rest ih =>
    obtain ⟨k', r'⟩ := e'
    simp only [abPop] at h
    by_cases hk : (k' == k) = true
    · rw [if_pos hk] at h
      exact List.mem_cons_of_mem _ h
    · rw [if_neg hk] at h
      rcases List.mem_cons.1 h with rfl | h'
      · exact List.mem_cons_self _ _
      · exact List.mem_cons_of_mem _ (ih h')

theorem mem_keys_abPop {b : AddressBook} {k x : String}
    (h : x ∈ (abPop b k).map Prod.fst) : x ∈ b.map Prod.fst := by
  simp only [List.mem_map] at h ⊢
  obtain ⟨e, he, rfl⟩ := h
  exact ⟨e, mem_abPop he, rfl⟩

theorem nodup_keys_abPop {b : AddressBook} {k : String}
    (h : (b.map Prod.fst).Nodup) : ((abPop b k).map Prod.fst).Nodup := by
  induction b with
  | nil => simp [abPop]
  | cons e rest ih =>
    obtain ⟨k', r'⟩ := e
    simp only [List.map_cons, List.nodup_cons] at h
    simp only [abPop]
    by_cases hk : (k' == k) = true
    · rw [if_pos hk]
      exact h.2
    · rw [if_neg hk]
      simp only [List.map_cons, List.nodup_cons]
      exact ⟨fun hx => h.1 (mem_keys_abPop hx), ih h.2⟩

theorem abGet_abPop_self {b : AddressBook} {k : String}
    (h : (b.map Prod.fst).Nodup) : abGet (abPop b k) k = none := by
  induction b with
  | nil => rfl
  | cons e rest ih =>
    obtain ⟨k', r'⟩ := e
    simp only [List.map_cons, List.nodup_cons] at h
    simp only [abPop]
    by_cases hk : (k' == k) = true
    · rw [if_pos hk]
      rw [← (beq_iff_eq.1 hk : k' = k)]
      exact abGet_eq_none_of_not_mem h.1
    · rw [if_neg hk]
      simp only [abGet]
      rw [if_neg hk]
      exact ih h.2

theorem mem_abInsert {b : AddressBook} {k : String} {r : Record}
    {e : String × Record} (h : e ∈ abInsert b k r) : e = (k, r) ∨ e ∈ b := by
  induction b with
  | nil =>
    simp only [abInsert, List.mem_singleton] at h
    exact Or.inl h
  | cons e' rest ih =>
    obtain ⟨k', r'⟩ := e'
    simp only [abInsert] at h
    by_cases hk : (k' == k) = true
    · rw [if_pos hk] at h
      rcases List.mem_cons.1 h with rfl | h'
      · rw [(beq_iff_eq.1 hk : k' = k)]
        exact Or.inl rfl
      · exact Or.inr (List.mem_cons_of_mem _ h')
    · rw [if_neg hk] at h
      rcases List.mem_cons.1 h with rfl | h'
      · exact Or.inr (List.mem_cons_self _ _)
      · rcases ih h' with h'' | h''
        · exact Or.inl h''
        · exact Or.inr (List.mem_cons_of_mem _ h'')

theorem mem_keys_abInsert {b : AddressBook} {k x : String} {r : Record}
    (h : x ∈ (abInsert b k r).map Prod.fst) : x ∈ b.map Prod.fst ∨ x = k := by
  simp only [List.mem_map] at h ⊢
  obtain ⟨e, he, rfl⟩ := h
  rcases mem_abInsert he with rfl | h'
  · exact Or.inr rfl
  · exact Or.inl ⟨e, h', rfl⟩

theorem nodup_keys_abInsert {b : AddressBook} {k : String} {r : Record}
    (h : (b.map Prod.fst).Nodup) : ((abInsert b k r).map Prod.fst).Nodup := by
  induction b with
  | nil => simp [abInsert]
  | cons e rest ih =>
    obtain ⟨k', r'⟩ := e
    simp only [List.map_cons, List.nodup_cons] at h
    simp only [abInsert]
    by_cases hk : (k' == k) = true
    · rw [if_pos hk]
      simp only [List.map_cons, List.nodup_cons]
      exact h
    · rw [if_neg hk]
      simp only [List.map_cons, List.nodup_cons]
      refine ⟨fun hx => ?_, ih h.2⟩
      rcases mem_keys_abInsert hx with h' | rfl
      · exact h.1 h'
      · exact hk (beq_iff_eq.2 rfl)

theorem abGet_abInsert_self {b : AddressBook} {k : String} {r : Record} :
    abGet (abInsert b k r) k = some r := by
  induction b with
  | nil =>
    simp [abInsert, abGet]
  | cons e rest ih =>
    obtain ⟨k', r'⟩ := e
    simp only [abInsert]
    by_cases hk : (k' == k) = true
    · rw [if_pos hk]
      simp only [abGet]
      rw [if_pos hk]
    · rw [if_neg hk]
      simp only [abGet]
      rw [if_neg hk]
      exact ih

theorem abGet_abInsert_ne {b : AddressBook} {k k2 : String} {r : Record}
    (hne : k2 ≠ k) : abGet (abInsert b k r) k2 = abGet b k2 := by
  induction b with
  | nil =>
    simp only [abInsert, abGet]
    rw [if_neg fun hk => hne (beq_iff_eq.1 hk).symm]
  | cons e rest ih =>
    obtain ⟨k', r'⟩ := e
    simp only [abInsert]
    by_cases hk : (k' == k) = true
    · rw [if_pos hk]
      simp only [abGet]
      rw [if_neg, if_neg]
      · intro hk2
        exact hne ((beq_iff_eq.1 hk2).symm.trans (beq_iff_eq.1 hk))
      · intro hk2
        exact hne ((beq_iff_eq.1 hk2).symm.trans (beq_iff_eq.1 hk))
    · rw [if_neg hk]
      simp only [abGet]
      by_cases hk2 : (k' == k2) = true
      · rw [if_pos hk2, if_pos hk2]
      · rw [if_neg hk2, if_neg hk2]
        exact ih

theorem changePhones_spec {old_p new_p : String} {l : List Phone}
    (h : ∃ p ∈ l, p.value = old_p) :
    changePhones old_p new_p l =
      some (l.eraseP (fun p => p.value == old_p) ++ [Phone.ofRaw new_p]) := by
  induction l with
  | nil => simp at h
  | cons p rest ih =>
    by_cases hp : (p.value == old_p) = true
    · simp only [changePhones]
      rw [if_pos hp]
      simp [List.eraseP_cons, hp]
    · have hp' : (p.value == old_p) = false := eq_false_of_ne_true hp
      simp only [changePhones]
      rw [if_neg hp]
      obtain ⟨q, hq, hqv⟩ := h
      rcases List.mem_cons.1 hq with rfl | hq'
      · exact absurd (beq_iff_eq.2 hqv) hp
      · rw [ih ⟨q, hq', hqv⟩]
        simp [List.eraseP_cons, hp']

/-! ## Claims -/

/-- C3 (counterexample): `sanitize_number` strips surrounding whitespace
first and only then removes the punctuation characters, so removing a
punctuation character can expose whitespace at the ends of the result:
on `"- 123 -"` the result is `" 123 "`, which has surrounding whitespace,
and sanitizing it again gives `"123"`, refuting idempotence. -/
theorem sanitize_not_idempotent_cex :
    sanitize_number "- 123 -" = " 123 "
    ∧ sanitize_number (sanitize_number "- 123 -") ≠ sanitize_number "- 123 -" := by
  exact ⟨by decide, by decide⟩

/-- C3 (amended): for every input string `s`, `sanitize_number s` equals the
whitespace-stripped input with every occurrence of '-', '(', ')' and '+'
filtered out — so it contains none of those four characters and preserves
all other characters of the stripped input in order; but the result may
retain interior whitespace exposed at its ends (and hence `sanitize_number`
is not idempotent in general). -/
theorem sanitize_characterization (s : String) :
    (sanitize_number s).data =
        (pyStrip s.data).filter (fun c => c != '-' && c != '(' && c != ')' && c != '+')
      ∧ '-' ∉ (sanitize_number s).data
      ∧ '(' ∉ (sanitize_number s).data
      ∧ ')' ∉ (sanitize_number s).data
      ∧ '+' ∉ (sanitize_number s).data := by
  have h : (sanitize_number s).data =
      (pyStrip s.data).filter (fun c => c != '-' && c != '(' && c != ')' && c != '+') := by
    show pyRemoveChar '+' (pyRemoveChar ')' (pyRemoveChar '(' (pyRemoveChar '-'
      (pyStrip s.data)))) = _
    simp only [pyRemoveChar, List.filter_filter]
    apply List.filter_congr
    intro c _
    cases h1 : c != '-' <;> cases h2 : c != '(' <;> cases h3 : c != ')' <;>
      cases h4 : c != '+' <;> simp [h1, h2, h3, h4]
  refine ⟨h, ?_, ?_, ?_, ?_⟩ <;>
    (rw [h]; intro hm; exact absurd (List.of_mem_filter hm) (by decide))

/-- C1: for every address book and every call of the `change` handler with
three arguments whose new phone is numeric, the handler returns the
confirmation string naming the contact and the new number — whether or not
a record for the name exists or a phone equal to the old one was found
(`change_record` discards `Record.change`'s not-found result). -/
theorem change_confirms_regardless (b : AddressBook) (n old_ph new_ph : String)
    (h : isnumeric new_ph = true) :
    (change b [n, old_ph, new_ph]).2 =
      Except.ok ("You just changed number for contact '" ++ n ++
        "'. New number is '" ++ new_ph ++ "'") := by
  simp [change, h]

/-- C1 witness: on the empty book — where no record and no phone can be
found — changing Ann's number still yields the confirmation string. -/
theorem change_confirms_regardless_witness :
    (change [] ["Ann", "000", "123"]).2 =
      Except.ok ("You just changed number for contact '" ++ "Ann" ++
        "'. New number is '" ++ "123" ++ "'") :=
  change_confirms_regardless [] "Ann" "000" "123" (by decide)

/-- An ASCII character that is not a decimal digit is not numeric: on ASCII
the Unicode `Numeric` property holds exactly for '0'-'9'. -/
theorem ascii_nondigit_not_numeric {c : Char} (hlt : c.toNat < 128)
    (hdig : c.isDigit = false) : pyNumericChar c = false := by
  simp only [pyNumericChar, hdig, Bool.false_or, Bool.or_eq_false_iff,
    decide_eq_false_iff_not]
  omega

/-- C6 (counterexample): the handler's check is `str.isnumeric()`, not an
all-digit check: the string "½½" is not all-digit, yet its characters carry
the Unicode Numeric property, so `change("Alice", "1234567890", "½½")` on
the sample book does not return the invalid-phone-format error — it returns
the confirmation string and replaces Alice's stored phone by "½½",
modifying the book. -/
theorem change_unicode_numeric_cex :
    "½½".data.all Char.isDigit = false
    ∧ isnumeric "½½" = true
    ∧ change sampleBook ["Alice", "1234567890", "½½"] =
        ([("Alice", (⟨⟨"Alice"⟩, some ⟨"1234567890"⟩, [⟨"½½"⟩]⟩ : Record))],
          Except.ok "You just changed number for contact 'Alice'. New number is '½½'")
    ∧ (change sampleBook ["Alice", "1234567890", "½½"]).1 ≠ sampleBook := by
  exact ⟨by decide, by decide, by decide, by decide⟩

/-- C6 (amended): for every address book, calling the `change` handler with
three arguments whose new-phone argument is an ASCII string that is empty or
not all-digit — and which therefore fails the handler's `str.isnumeric()`
check, exact on ASCII — yields the `ValueError` branch, reported as the
invalid-phone-format message, and returns the book completely unmodified.
(A non-ASCII new phone made of Unicode numeric characters, such as "½½",
passes the check instead and is confirmed.) -/
theorem change_invalid_phone_preserves (b : AddressBook) (n old_ph new_ph : String)
    (hascii : ∀ c ∈ new_ph.data, c.toNat < 128)
    (hnd : new_ph.data.all Char.isDigit = false ∨ new_ph = "") :
    change b [n, old_ph, new_ph] = (b, Except.error PyErr.valueError)
    ∧ errMsg PyErr.valueError = "Phone number must include digits only" := by
  have hnum : isnumeric new_ph = false := by
    rcases hnd with hnd | rfl
    · have hex : ∃ c ∈ new_ph.data, ¬c.isDigit = true := by
        by_contra hno
        push_neg at hno
        have : new_ph.data.all Char.isDigit = true :=
          List.all_eq_true.2 fun c hc => hno c hc
        rw [this] at hnd
        exact absurd hnd (by simp)
      obtain ⟨c, hc, hcd⟩ := hex
      have hcn : pyNumericChar c = false :=
        ascii_nondigit_not_numeric (hascii c hc) (eq_false_of_ne_true hcd)
      have hall : new_ph.data.all pyNumericChar = false := by
        cases hv : new_ph.data.all pyNumericChar with
        | false => rfl
        | true => exact absurd (List.all_eq_true.1 hv c hc) (by rw [hcn]; simp)
      unfold isnumeric
      rw [hall]
      simp
    · rfl
  refine ⟨?_, rfl⟩
  simp [change, hnum]

/-- C6 witness: changing Alice's number to the ASCII non-digit string "12a"
on the one-contact sample book errors out and leaves the book as it was. -/
theorem change_invalid_phone_preserves_witness :
    change sampleBook ["Alice", "1234567890", "12a"] =
      (sampleBook, Except.error PyErr.valueError)
    ∧ errMsg PyErr.valueError = "Phone number must include digits only" :=
  change_invalid_phone_preserves sampleBook "Alice" "1234567890" "12a"
    (by decide) (Or.inl (by decide))

/-- C4 (counterexample): `commandParser` removes every occurrence of the
matched keyword from the line (Python `str.replace`), not just the matched
prefix, and splits the remainder on single space characters, keeping empty
pieces: "add addition" parses to argument "ition" (not "addition"), and
"add a  b" keeps an empty argument between "a" and "b". -/
theorem parser_removes_all_occurrences_cex :
    commandParser "add addition" = some (Cmd.add, ["ition"])
    ∧ (["ition"] : List String) ≠ ["addition"]
    ∧ commandParser "add a  b" = some (Cmd.add, ["a", "", "b"])
    ∧ (["a", "", "b"] : List String) ≠ ["a", "b"] := by
  exact ⟨by decide, by decide, by decide, by decide⟩

/-- C4 (amended): for every lower-cased input line, `commandParser` checks
the keywords in priority order add, hello, show all, change, phone, help,
delete and selects the first that is a prefix of the line; the arguments are
obtained by removing every occurrence of that keyword from the line,
stripping, and splitting on single spaces; in particular "show all contacts
please" resolves to keyword "show all" with arguments ["contacts",
"please"]. -/
theorem parser_priority_chain (s : String) :
    commandParser s =
      (if pyStartsWith s "add" then some (Cmd.add, argsOf "add" s)
       else if pyStartsWith s "hello" then some (Cmd.hello, argsOf "hello" s)
       else if pyStartsWith s "show all" then some (Cmd.showAll, argsOf "show all" s)
       else if pyStartsWith s "change" then some (Cmd.change, argsOf "change" s)
       else if pyStartsWith s "phone" then some (Cmd.phone, argsOf "phone" s)
       else if pyStartsWith s "help" then some (Cmd.helper, argsOf "help" s)
       else if pyStartsWith s "delete" then some (Cmd.deleteContact, argsOf "delete" s)
       else none)
    ∧ commandParser "show all contacts please" =
        some (Cmd.showAll, ["contacts", "please"]) := by
  exact ⟨rfl, by decide⟩

/-- C5 (counterexample): `main` compares the lower-cased input line to the
exit tokens without trimming it, so a line that equals an exit token only
after trimming — such as " bye" — does not terminate the loop (it falls
through to unknown-command handling), although the claim says it should. -/
theorem exit_requires_untrimmed_cex :
    end_words.contains (pyLower (strOf (pyStrip " bye".data))) = true
    ∧ mainStep [] [] " bye" = StepOutcome.printed [] "Sorry, unknown command" := by
  exact ⟨by decide, by decide⟩

/-- C5 (amended): the REPL loop transitions from running to terminated
exactly when the lower-cased raw input line — with no trimming applied —
equals one of the exit tokens '.', 'close', 'bye', 'exit' as a whole line:
"Bye" terminates the loop, while "bye now" does not and falls through to
unknown-command handling. -/
theorem exit_tokens_exact (responses : List String) (b : AddressBook) (line : String) :
    (mainStep responses b line = StepOutcome.exit
      ↔ end_words.contains (pyLower line) = true)
    ∧ mainStep responses b "Bye" = StepOutcome.exit
    ∧ mainStep responses b "bye now" = StepOutcome.printed b "Sorry, unknown command" := by
  refine ⟨?_, rfl, rfl⟩
  constructor
  · intro he
    by_contra hc
    unfold mainStep at he
    rw [if_neg hc] at he
    split at he
    · exact absurd he (by simp)
    · split at he <;> exact absurd he (by simp)
  · intro hc
    unfold mainStep
    rw [if_pos hc]

/-- C10: each registered keyword, given as the whole input line, parses to a
single empty-string argument (not an empty argument list); consequently the
bare input "phone" prints the contact-not-found message for the empty name
(when no record is keyed by the empty string), while the bare input "add"
prints the missing-argument error, its second argument being absent. -/
theorem keyword_only_empty_arg (b : AddressBook) (responses : List String)
    (h : abGet b "" = none) :
    commandParser "add" = some (Cmd.add, [""])
    ∧ commandParser "hello" = some (Cmd.hello, [""])
    ∧ commandParser "show all" = some (Cmd.showAll, [""])
    ∧ commandParser "change" = some (Cmd.change, [""])
    ∧ commandParser "phone" = some (Cmd.phone, [""])
    ∧ commandParser "help" = some (Cmd.helper, [""])
    ∧ commandParser "delete" = some (Cmd.deleteContact, [""])
    ∧ mainStep responses b "phone" =
        StepOutcome.printed b "There is no contact with the name "
    ∧ mainStep responses b "add" =
        StepOutcome.printed b "You didn't provide contact name or phone number" := by
  refine ⟨by decide, by decide, by decide, by decide, by decide, by decide, by decide, ?_, rfl⟩
  have e1 : mainStep responses b "phone" =
      StepOutcome.printed b (show_one_record b "") := rfl
  rw [e1]
  simp only [show_one_record, h]
  rw [(by decide : ("There is no contact with the name " ++ "" : String) =
    "There is no contact with the name ")]

/-- C10 witness: on the empty book, the bare inputs "phone" and "add"
produce the two messages the claim describes. -/
theorem keyword_only_empty_arg_witness :
    mainStep [] [] "phone" = StepOutcome.printed [] "There is no contact with the name "
    ∧ mainStep [] [] "add" =
        StepOutcome.printed [] "You didn't provide contact name or phone number" :=
  ⟨(keyword_only_empty_arg [] [] rfl).2.2.2.2.2.2.2.1,
   (keyword_only_empty_arg [] [] rfl).2.2.2.2.2.2.2.2⟩

/-- C7: for every record whose phone sequence contains an entry whose stored
(sanitized) value equals the old value, `Record.change` removes the first
such entry and appends a `Phone` constructed from the new value (re-applying
sanitization) at the end, returning no not-found message; hence after
`change("Alice", "1234567890", "9998887776")` on a book where Alice holds
1234567890, `phone("Alice")` no longer lists 1234567890 and lists
9998887776. -/
theorem record_change_replaces (r : Record) (old_p new_p : String)
    (h : ∃ p ∈ r.phones, p.value = old_p) :
    (Record.change r old_p new_p).1.phones =
        r.phones.eraseP (fun p => p.value == old_p) ++ [Phone.ofRaw new_p]
    ∧ (Record.change r old_p new_p).2 = none
    ∧ show_one_record (change sampleBook ["Alice", "1234567890", "9998887776"]).1
        "Alice" = "Alice : 9998887776"
    ∧ containsSub
        (show_one_record (change sampleBook ["Alice", "1234567890", "9998887776"]).1
          "Alice") "1234567890" = false
    ∧ containsSub
        (show_one_record (change sampleBook ["Alice", "1234567890", "9998887776"]).1
          "Alice") "9998887776" = true := by
  refine ⟨?_, ?_, by decide, by decide, by decide⟩
  · simp [Record.change, changePhones_spec h]
  · simp [Record.change, changePhones_spec h]

/-- C7 witness: replacing the phone "1" by "2" in a one-phone record. -/
theorem record_change_replaces_witness :
    (Record.change (Record.make ⟨"A"⟩ (some (Phone.ofRaw "1"))) "1" "2").1.phones =
      (Record.make ⟨"A"⟩ (some (Phone.ofRaw "1"))).phones.eraseP
        (fun p => p.value == "1") ++ [Phone.ofRaw "2"] :=
  (record_change_replaces (Record.make ⟨"A"⟩ (some (Phone.ofRaw "1"))) "1" "2"
    ⟨Phone.ofRaw "1", by decide, by decide⟩).1

/-- C8: for every address book, `delete_contact` with a non-empty name
argument pops the entry keyed by that name — so under the unique-keys
invariant no record keyed by that name remains, and the pop is a no-op when
none exists — and returns the deletion confirmation; with an empty name
argument it raises `IndexError`, reported as the missing-argument message,
and returns the book unchanged. -/
theorem delete_contact_spec (b : AddressBook) (nm : String) (rest : List String) :
    ((b.map Prod.fst).Nodup → abGet (abPop b nm) nm = none)
    ∧ (nm ≠ "" → delete_contact b (nm :: rest) =
        (abPop b nm, Except.ok (nm ++ " was deleted from your contact list")))
    ∧ delete_contact b ("" :: rest) = (b, Except.error PyErr.indexError)
    ∧ errMsg PyErr.indexError = "You didn't provide contact name or phone number" := by
  refine ⟨fun hnd => abGet_abPop_self hnd, fun hnm => ?_, ?_, rfl⟩
  · simp [delete_contact, hnm, remove_record, Record.make]
  · simp [delete_contact]

/-- C8 witness: deleting Alice from the sample book pops her record (leaving
no record keyed "Alice"), and deleting the empty name errors out. -/
theorem delete_contact_spec_witness :
    abGet (abPop sampleBook "Alice") "Alice" = none
    ∧ delete_contact sampleBook ["Alice"] =
        (abPop sampleBook "Alice",
          Except.ok ("Alice" ++ " was deleted from your contact list"))
    ∧ delete_contact sampleBook [""] = (sampleBook, Except.error PyErr.indexError) :=
  ⟨(delete_contact_spec sampleBook "Alice" []).1 (by decide),
   (delete_contact_spec sampleBook "Alice" []).2.1 (by decide),
   (delete_contact_spec sampleBook "" []).2.2.1⟩

/-! ## More helper lemmas: substring search and the book invariant -/

theorem startsWithL_refl_append (n t : List Char) :
    startsWithL n (n ++ t) = true := by
  induction n with
  | nil => rfl
  | cons k ks ih => simp [startsWithL, ih]

theorem startsWithL_mono {n l : List Char} (t : List Char)
    (h : startsWithL n l = true) : startsWithL n (l ++ t) = true := by
  induction n generalizing l with
  | nil => rfl
  | cons k ks ih =>
    cases l with
    | nil => simp [startsWithL] at h
    | cons c cs =>
      simp only [List.cons_append, startsWithL, Bool.and_eq_true] at h ⊢
      exact ⟨h.1, ih h.2⟩

theorem isSubOf_of_starts {n l : List Char} (hs : startsWithL n l = true) :
    isSubOf n l = true := by
  cases l with
  | nil =>
    cases n with
    | nil => rfl
    | cons k ks => simp [startsWithL] at hs
  | cons c rest => simp [isSubOf, hs]

theorem isSubOf_append_left {n l : List Char} (pre : List Char)
    (hs : isSubOf n l = true) : isSubOf n (pre ++ l) = true := by
  induction pre with
  | nil => exact hs
  | cons c pre' ih => simp [isSubOf, ih]

theorem joinWith_decomp {x : List Char} {ls : List (List Char)} (sep : List Char)
    (hx : x ∈ ls) : ∃ pre suf, joinWith sep ls = pre ++ x ++ suf := by
  induction ls with
  | nil => simp at hx
  | cons a tail ih =>
    rcases List.mem_cons.1 hx with rfl | hx'
    · cases tail with
      | nil => exact ⟨[], [], by simp [joinWith]⟩
      | cons b tail' =>
        exact ⟨[], sep ++ joinWith sep (b :: tail'), by simp [joinWith]⟩
    · cases tail with
      | nil => simp at hx'
      | cons b tail' =>
        obtain ⟨pre, suf, hps⟩ := ih hx'
        exact ⟨a ++ sep ++ pre, suf, by simp [joinWith, hps]⟩

theorem name_sub_show_all {b : AddressBook} {k : String} {r : Record}
    (hmem : (k, r) ∈ b) (hname : r.name.value = k) :
    containsSub (show_all_records b) k = true := by
  cases b with
  | nil => simp at hmem
  | cons e rest =>
    have hline : (renderRecord r).data ∈
        (((e :: rest).map fun e => renderRecord e.2).map String.data) :=
      List.mem_map_of_mem _ (List.mem_map_of_mem _ hmem)
    obtain ⟨pre, suf, hps⟩ := joinWith_decomp "\n".data hline
    show isSubOf k.data (show_all_records (e :: rest)).data = true
    have hsa : (show_all_records (e :: rest)).data =
        joinWith "\n".data
          (((e :: rest).map fun e => renderRecord e.2).map String.data) := rfl
    rw [hsa, hps, List.append_assoc]
    refine isSubOf_append_left pre (isSubOf_of_starts ?_)
    apply startsWithL_mono
    have hdata : (renderRecord r).data =
        k.data ++ (" : ".data ++ (joinSep "," (r.phones.map Phone.value)).data) := by
      simp [renderRecord, strAppend_data, hname, List.append_assoc]
    rw [hdata]
    exact startsWithL_refl_append _ _

theorem record_change_name (r : Record) (old_p new_p : String) :
    (Record.change r old_p new_p).1.name = r.name := by
  unfold Record.change
  cases changePhones old_p new_p r.phones <;> rfl

theorem invBook_abPop {b : AddressBook} {k : String} (hb : InvBook b) :
    InvBook (abPop b k) :=
  ⟨fun e he => hb.1 e (mem_abPop he), nodup_keys_abPop hb.2⟩

theorem invBook_abInsert {b : AddressBook} {k : String} {r : Record}
    (hb : InvBook b) (hk : r.name.value = k) : InvBook (abInsert b k r) := by
  refine ⟨fun e he => ?_, nodup_keys_abInsert hb.2⟩
  rcases mem_abInsert he with rfl | h'
  · exact hk
  · exact hb.1 e h'

theorem invBook_addFinish {b b' : AddressBook} {nv : String} {p : Phone}
    {rec : Option Record} {res : Except PyErr String}
    (hb : InvBook b) (h : addFinish b nv p rec = HRes.done b' res) :
    InvBook b' := by
  unfold addFinish at h
  by_cases hn : isnumeric p.value = true
  · rw [if_pos hn] at h
    cases rec with
    | some r =>
      injection h with h1 h2
      exact h1 ▸ invBook_abInsert hb rfl
    | none =>
      injection h with h1 h2
      exact h1 ▸ invBook_abInsert hb rfl
  · rw [if_neg hn] at h
    injection h with h1 h2
    exact h1 ▸ hb

/-- C2 (counterexample): on a book where Alice already holds 1234567890,
`add("Alice", "1112223333")` does not append the phone: the duplicate-name
prompt triggers; answering '1' rewrites Alice's record so only the new
phone remains, and answering '2' stores the phone under the new key
"Alice(1)" so Alice still lists only the old phone — in neither case does
`phone("Alice")` list both numbers comma-joined. -/
theorem add_existing_appends_cex :
    add ["1"] sampleBook ["Alice", "1112223333"] =
      HRes.done rewriteBook (.ok (addMsg "Alice" "1112223333"))
    ∧ show_one_record rewriteBook "Alice" = "Alice : 1112223333"
    ∧ show_one_record rewriteBook "Alice" ≠ "Alice : 1234567890,1112223333"
    ∧ containsSub (show_one_record rewriteBook "Alice") "1234567890" = false
    ∧ add ["2"] sampleBook ["Alice", "1112223333"] =
      HRes.done renamedBook (.ok (addMsg "Alice(1)" "1112223333"))
    ∧ show_one_record renamedBook "Alice" = "Alice : 1234567890"
    ∧ show_one_record renamedBook "Alice" ≠ "Alice : 1234567890,1112223333" := by
  exact ⟨by decide, by decide, by decide, by decide, by decide, by decide, by decide⟩

/-- C2 (amended): for every address book with distinct keys in which a
contact named N exists holding exactly one phone P1, calling the add
handler with (N, P2) where the sanitized P2 is numeric does not append P2
to N's record; it triggers the duplicate-name prompt.  Answering '1'
replaces N's record with a fresh record holding only P2, so `phone(N)`
then lists only the sanitized P2; answering '2' (when no record is keyed
N(1)) stores P2 under the renamed key N(1), and `phone(N)` still lists
only P1. -/
theorem add_existing_prompts (b : AddressBook) (N P1 P2 : String)
    (ph0 : Option Phone)
    (hnd : (b.map Prod.fst).Nodup)
    (hget : abGet b N = some ⟨⟨N⟩, ph0, [⟨P1⟩]⟩)
    (hnum : isnumeric (sanitize_number P2) = true)
    (hnew : abGet b (N ++ "(1)") = none) :
    (add ["1"] b [N, P2] =
        HRes.done (abInsert (abPop b N) N (Record.make ⟨N⟩ (some (Phone.ofRaw P2))))
          (.ok (addMsg N (sanitize_number P2)))
      ∧ show_one_record
          (abInsert (abPop b N) N (Record.make ⟨N⟩ (some (Phone.ofRaw P2)))) N =
          N ++ " : " ++ sanitize_number P2)
    ∧ (add ["2"] b [N, P2] =
        HRes.done
          (abInsert b (N ++ "(1)") (Record.make ⟨N ++ "(1)"⟩ (some (Phone.ofRaw P2))))
          (.ok (addMsg (N ++ "(1)") (sanitize_number P2)))
      ∧ show_one_record
          (abInsert b (N ++ "(1)") (Record.make ⟨N ++ "(1)"⟩ (some (Phone.ofRaw P2))))
          N = N ++ " : " ++ P1) := by
  have hcont : containsSub (show_all_records b) N = true :=
    name_sub_show_all (abGet_mem hget) rfl
  refine ⟨⟨?_, ?_⟩, ?_, ?_⟩
  · simp only [add, List.get?]
    rw [if_pos hcont]
    rw [(by decide : resolvePrompt ["1"] = some PromptAnswer.rewrite)]
    rw [hget]
    show addFinish (abPop b N) N (Phone.ofRaw P2) (abGet (abPop b N) N) = _
    rw [abGet_abPop_self hnd]
    simp only [addFinish, Phone.ofRaw]
    rw [if_pos hnum]
    rfl
  · simp only [show_one_record, abGet_abInsert_self]
    rfl
  · simp only [add, List.get?]
    rw [if_pos hcont]
    rw [(by decide : resolvePrompt ["2"] = some PromptAnswer.createNew)]
    show addFinish b (N ++ "(1)") (Phone.ofRaw P2) (abGet b (N ++ "(1)")) = _
    rw [hnew]
    simp only [addFinish, Phone.ofRaw]
    rw [if_pos hnum]
    rfl
  · simp only [show_one_record]
    rw [abGet_abInsert_ne (str_append_paren_ne N), hget]
    rfl

/-- C2 witness: instantiating the prompt behavior on the sample book; after
answering '2', Alice still lists only her original number. -/
theorem add_existing_prompts_witness :
    show_one_record
      (abInsert sampleBook ("Alice" ++ "(1)")
        (Record.make ⟨"Alice" ++ "(1)"⟩ (some (Phone.ofRaw "1112223333"))))
      "Alice" = "Alice" ++ " : " ++ "1234567890" :=
  (add_existing_prompts sampleBook "Alice" "1234567890" "1112223333"
    (some (Phone.ofRaw "1234567890"))
    (by decide) (by decide) (by decide) (by decide)).2.2

/-- C9: the address book invariant — every stored record's name value
equals its key, and no two entries share a key — is preserved by every
operation reachable through the handlers: `add` (whenever it completes),
`change` and `delete_contact` preserve it, while `phone` and `show_all`
leave the book untouched. -/
theorem handlers_preserve_invariant (b : AddressBook) (hb : InvBook b) :
    (∀ responses args b' res,
      add responses b args = HRes.done b' res → InvBook b')
    ∧ (∀ args, InvBook (change b args).1)
    ∧ (∀ args, InvBook (delete_contact b args).1)
    ∧ (∀ args, (phone b args).1 = b)
    ∧ (∀ args, (show_all b args).1 = b) := by
  refine ⟨?_, ?_, ?_, ?_, fun _ => rfl⟩
  · intro responses args b' res h
    rcases h0 : args.get? 0 with _ | a0
    · simp only [add, h0] at h
      injection h with h1 h2
      exact h1 ▸ hb
    · rcases h1 : args.get? 1 with _ | a1
      · simp only [add, h0, h1] at h
        injection h with hh1 hh2
        exact hh1 ▸ hb
      · simp only [add, h0, h1] at h
        by_cases hcont : containsSub (show_all_records b) a0 = true
        · rw [if_pos hcont] at h
          cases hrp : resolvePrompt responses with
          | none =>
            rw [hrp] at h
            exact absurd h (by simp)
          | some pa =>
            rw [hrp] at h
            cases pa with
            | createNew => exact invBook_addFinish hb h
            | rewrite =>
              cases hg : abGet b a0 with
              | none =>
                rw [hg] at h
                exact absurd h (by simp)
              | some r =>
                rw [hg] at h
                exact invBook_addFinish (invBook_abPop hb) h
        · rw [if_neg hcont] at h
          exact invBook_addFinish hb h
  · intro args
    rcases h0 : args.get? 0 with _ | n
    · simp only [change, h0]
      exact hb
    · rcases h1 : args.get? 1 with _ | o
      · simp only [change, h0, h1]
        exact hb
      · rcases h2 : args.get? 2 with _ | w
        · simp only [change, h0, h1, h2]
          exact hb
        · simp only [change, h0, h1, h2]
          by_cases hn : isnumeric w = true
          · rw [if_pos hn]
            show InvBook (change_record b ⟨n⟩ o w)
            unfold change_record
            cases hg : abGet b (Name.mk n).value with
            | none => exact hb
            | some r =>
              have hk : r.name.value = n := hb.1 (n, r) (abGet_mem hg)
              exact invBook_abInsert hb
                (by rw [congrArg Name.value (record_change_name r o w), hk])
          · rw [if_neg hn]
            exact hb
  · intro args
    rcases h0 : args.get? 0 with _ | a0
    · simp only [delete_contact, h0]
      exact hb
    · simp only [delete_contact, h0]
      by_cases ha : a0 = ""
      · rw [if_neg (by simp [ha])]
        exact hb
      · rw [if_pos ha]
        exact invBook_abPop hb
  · intro args
    unfold phone
    cases args.get? 0 <;> rfl

/-- C9 witness: the invariant holds on the sample book and is preserved by
a concrete `change` call on it. -/
theorem handlers_preserve_invariant_witness :
    InvBook (change sampleBook ["Alice", "1234567890", "9998887776"]).1 :=
  (handlers_preserve_invariant sampleBook ⟨by decide, by decide⟩).2.1
    ["Alice", "1234567890", "9998887776"]
